import Mathlib

/-
Verification of the path-query engine of the utilities repository
(src/package/js/utensils.js, functions getValuesFromObjectByPath and
traverseBasedOnPath).

Embedding notes.  JavaScript JSON-like values are modelled by the
inductive type JSVal: undefined, null, booleans, numbers (as integers;
the documents this engine handles carry integer data and no claim
involves non-integer arithmetic or NaN), strings, arrays and
string-keyed objects.  Property access item?.[key] is modelled by
jsOptLookup: undefined and null short-circuit to undefined, objects look
the key up in their field list, arrays expose their elements under
canonical decimal index strings and their length under the key
"length", and other scalars have no accessible properties.  The
JavaScript operations .filter(Boolean) and .flat() are modelled by
List.filter truthy and flattenOne; String.prototype.split with the
one-character separator slash is modelled by splitSlash, which agrees
with it on every string (in particular both turn the empty string into
a one-element list holding the empty string).
-/

inductive JSVal where
  | undef : JSVal
  | null : JSVal
  | bool : Bool → JSVal
  | num : Int → JSVal
  | str : String → JSVal
  | arr : List JSVal → JSVal
  | obj : List (String × JSVal) → JSVal
  deriving Repr

/-- JavaScript truthiness on the modelled values: undefined, null, false,
0 and the empty string are falsy; every other value, in particular every
array and every object, is truthy. -/
def truthy : JSVal → Bool
  | JSVal.undef => false
  | JSVal.null => false
  | JSVal.bool b => b
  | JSVal.num n => decide (n ≠ 0)
  | JSVal.str s => decide (s ≠ "")
  | JSVal.arr _ => true
  | JSVal.obj _ => true

/-- The test v === undefined of the source. -/
def isUndef : JSVal → Bool
  | JSVal.undef => true
  | _ => false

/-- The test current === undefined or current === null of the source. -/
def isNullish : JSVal → Bool
  | JSVal.undef => true
  | JSVal.null => true
  | _ => false

/-- The test Array.isArray(v) of the source. -/
def isArray : JSVal → Bool
  | JSVal.arr _ => true
  | _ => false

/-- Property access v[key] on a value already known to be neither
undefined nor null: objects look the key up in their field list, arrays
answer canonical decimal indices and "length", all other scalars have no
own properties and give undefined. -/
def jsLookup : JSVal → String → JSVal
  | JSVal.obj fields, key =>
      match fields.lookup key with
      | some v => v
      | none => JSVal.undef
  | JSVal.arr xs, key =>
      if key = "length" then JSVal.num (xs.length : Int)
      else
        match key.toNat? with
        | some i => if toString i = key ∧ i < xs.length then xs.getD i JSVal.undef else JSVal.undef
        | none => JSVal.undef
  | _, _ => JSVal.undef

/-- Optional-chained property access item?.[key]: undefined and null
short-circuit to undefined, everything else is plain property access. -/
def jsOptLookup (v : JSVal) (key : String) : JSVal :=
  match v with
  | JSVal.undef => JSVal.undef
  | JSVal.null => JSVal.undef
  | v => jsLookup v key

/-- JavaScript Array.prototype.flat() with default depth 1: elements
that are arrays are spliced in, all other elements are kept as they are. -/
def flattenOne : List JSVal → List JSVal
  | [] => []
  | JSVal.arr ys :: rest => ys ++ flattenOne rest
  | v :: rest => v :: flattenOne rest

/-- Helper of splitSlash: walks the character list, accumulating the
current segment and cutting at every slash. -/
def splitSlashAux : List Char → String → List String
  | [], acc => [acc]
  | c :: cs, acc =>
    if c = '/' then acc :: splitSlashAux cs "" else splitSlashAux cs (acc.push c)

/-- JavaScript String.prototype.split with separator slash: cuts the
string at every slash, keeping empty segments; the empty string yields
the one-element list holding the empty string, exactly as in
JavaScript. -/
def splitSlash (s : String) : List String :=
  splitSlashAux s.data ""

/-- traverseBasedOnPath (src/package/js/utensils.js lines 289-318).
The loop over pathKeys becomes structural recursion: when current is
undefined or null the loop breaks and current is returned; the wildcard
segment [n] demands an array and replaces it by its truthy-filtered,
once-flattened copy (a non-array makes the whole call return undefined);
a normal segment distributes the lookup over an array (filtering falsy
lookup results and flattening once) and is a plain optional-chained
lookup otherwise. -/
def traverseBasedOnPath (current : JSVal) : List String → JSVal
  | [] => current
  | key :: rest =>
    if isNullish current then current
    else if key = "[n]" then
      match current with
      | JSVal.arr xs => traverseBasedOnPath (JSVal.arr (flattenOne (xs.filter truthy))) rest
      | _ => JSVal.undef
    else
      match current with
      | JSVal.arr xs =>
          traverseBasedOnPath
            (JSVal.arr (flattenOne ((xs.map (fun item => jsOptLookup item key)).filter truthy))) rest
      | _ => traverseBasedOnPath (jsOptLookup current key) rest

/-- The body of the loop of getValuesFromObjectByPath for a single split
path (src/package/js/utensils.js lines 262-277): an empty segment list is
skipped, otherwise the last segment is popped as the accessor, the
remaining segments are traversed, and the final value is the distributed,
truthy-filtered accessor lookup on an array intermediate or the plain
optional-chained lookup otherwise; the contribution is none exactly when
the intermediate or the final value is undefined. -/
def pathContribution (obj : JSVal) (pathKeys : List String) : Option JSVal :=
  if pathKeys.isEmpty then none
  else
    let accessor := pathKeys.getLastD ""
    let valueAtPath := traverseBasedOnPath obj pathKeys.dropLast
    if isUndef valueAtPath then none
    else
      let finalValue :=
        match valueAtPath with
        | JSVal.arr xs => JSVal.arr ((xs.map (fun item => jsOptLookup item accessor)).filter truthy)
        | v => jsOptLookup v accessor
      if isUndef finalValue then none else some finalValue

/-- The results array built by the loop of getValuesFromObjectByPath:
each path contribution that exists is pushed, in order. -/
def extractResults (obj : JSVal) : List (List String) → List JSVal
  | [] => []
  | pathKeys :: rest =>
    match pathContribution obj pathKeys with
    | some v => v :: extractResults obj rest
    | none => extractResults obj rest

/-- The paths argument of getValuesFromObjectByPath: a bare string or an
array of strings. -/
inductive PathArg where
  | single : String → PathArg
  | multiple : List String → PathArg
  deriving Repr

/-- Normalization of the paths argument (src/package/js/utensils.js
lines 257-259): every path string is split on the slash; a bare string
becomes a one-element list. -/
def normalizePaths : PathArg → List (List String)
  | PathArg.single p => [splitSlash p]
  | PathArg.multiple ps => ps.map (fun p => splitSlash p)

/-- getValuesFromObjectByPath (src/package/js/utensils.js lines
256-281): build the results array and apply the return policy of line
280, results.length > 1 ? results : results[0], where indexing an empty
array gives undefined. -/
def getValuesFromObjectByPath (obj : JSVal) (paths : PathArg) : JSVal :=
  let results := extractResults obj (normalizePaths paths)
  if 1 < results.length then JSVal.arr results else results.headD JSVal.undef

/-- The document of testable property 3 of the spec:
an object whose items field holds three objects with v equal to 1, 2 and 0. -/
def docItems : JSVal :=
  JSVal.obj [("items", JSVal.arr
    [JSVal.obj [("v", JSVal.num 1)], JSVal.obj [("v", JSVal.num 2)], JSVal.obj [("v", JSVal.num 0)]])]

/-- The document of testable property 4 of the spec:
an object whose items field holds two singleton arrays of objects. -/
def docNested : JSVal :=
  JSVal.obj [("items", JSVal.arr
    [JSVal.arr [JSVal.obj [("v", JSVal.num 1)]], JSVal.arr [JSVal.obj [("v", JSVal.num 2)]]])]

theorem isUndef_iff (v : JSVal) : isUndef v = true ↔ v = JSVal.undef := by
  cases v <;> simp [isUndef]

theorem isEmpty_concat_eq_false (ks : List String) (a : String) :
    (ks ++ [a]).isEmpty = false := by
  cases ks <;> rfl

theorem extractResults_append (obj : JSVal) (as bs : List (List String)) :
    extractResults obj (as ++ bs) = extractResults obj as ++ extractResults obj bs := by
  induction as with
  | nil => rfl
  | cons pk rest ih =>
    simp only [List.cons_append, extractResults]
    cases pathContribution obj pk <;> simp [ih]

/-- Claim C1: getValuesFromObjectByPath applies the output unwrap rule to
the sequence of per-path results: more than one entry gives the full
ordered sequence as an array, exactly one entry gives that single value
unwrapped, and zero entries give undefined. -/
theorem extract_output_unwrap_rule (obj : JSVal) (paths : PathArg) :
    (1 < (extractResults obj (normalizePaths paths)).length →
      getValuesFromObjectByPath obj paths = JSVal.arr (extractResults obj (normalizePaths paths))) ∧
    (∀ v, extractResults obj (normalizePaths paths) = [v] →
      getValuesFromObjectByPath obj paths = v) ∧
    (extractResults obj (normalizePaths paths) = [] →
      getValuesFromObjectByPath obj paths = JSVal.undef) := by
  refine ⟨fun h => ?_, fun v h => ?_, fun h => ?_⟩ <;>
    simp [getValuesFromObjectByPath, h]

/-- Witness for claim C1, at the mixed-arity document of testable
property 5 of the spec: with paths a/b and a/x only a/b contributes, so
the lone value 5 is returned unwrapped, while asking for a/b twice
returns the two-element sequence. -/
theorem extract_output_unwrap_rule_witness :
    getValuesFromObjectByPath (JSVal.obj [("a", JSVal.obj [("b", JSVal.num 5)])])
        (PathArg.multiple ["a/b", "a/x"]) = JSVal.num 5 ∧
    getValuesFromObjectByPath (JSVal.obj [("a", JSVal.obj [("b", JSVal.num 5)])])
        (PathArg.multiple ["a/b", "a/b"]) = JSVal.arr [JSVal.num 5, JSVal.num 5] :=
  ⟨(extract_output_unwrap_rule _ _).2.1 (JSVal.num 5) rfl,
   (extract_output_unwrap_rule _ _).1 (by decide)⟩

/-- Claim C2: the embedding of getValuesFromObjectByPath and
traverseBasedOnPath is built from total structural recursions, so every
call terminates with a JSVal and no exceptional outcome exists in the
model; the theorem states the degradation policy: a path that
contributes nothing makes a single-path call return undefined, and in a
multi-path call such a path can be dropped without changing the
answer. -/
theorem extract_degrades_never_throws (obj : JSVal) :
    (∀ p, pathContribution obj (splitSlash p) = none →
      getValuesFromObjectByPath obj (PathArg.single p) = JSVal.undef) ∧
    (∀ ps1 ps2 p, pathContribution obj (splitSlash p) = none →
      getValuesFromObjectByPath obj (PathArg.multiple (ps1 ++ p :: ps2)) =
        getValuesFromObjectByPath obj (PathArg.multiple (ps1 ++ ps2))) := by
  constructor
  · intro p h
    simp [getValuesFromObjectByPath, normalizePaths, extractResults, h]
  · intro ps1 ps2 p h
    have hres : extractResults obj (normalizePaths (PathArg.multiple (ps1 ++ p :: ps2))) =
        extractResults obj (normalizePaths (PathArg.multiple (ps1 ++ ps2))) := by
      simp [normalizePaths, extractResults_append, extractResults, h]
    simp [getValuesFromObjectByPath, hres]

/-- Witness for claim C2: on the document with a.b equal to 5, the
missing path a/x alone gives undefined, and dropping it from a
multi-path query does not change the answer. -/
theorem extract_degrades_never_throws_witness :
    getValuesFromObjectByPath (JSVal.obj [("a", JSVal.obj [("b", JSVal.num 5)])])
        (PathArg.single "a/x") = JSVal.undef ∧
    getValuesFromObjectByPath (JSVal.obj [("a", JSVal.obj [("b", JSVal.num 5)])])
        (PathArg.multiple ["a/b", "a/x"]) =
      getValuesFromObjectByPath (JSVal.obj [("a", JSVal.obj [("b", JSVal.num 5)])])
        (PathArg.multiple ["a/b"]) :=
  ⟨(extract_degrades_never_throws _).1 "a/x" rfl,
   (extract_degrades_never_throws _).2 ["a/b"] [] "a/x" rfl⟩

/-- Claim C3: absence and present-but-empty are distinguished: an empty
sequence of per-path results collapses to undefined, but a path whose
contribution is a legitimately present empty array makes the single-path
call return that empty array itself, which is not undefined. -/
theorem extract_empty_vs_absent (obj : JSVal) :
    (∀ ps, extractResults obj (ps.map (fun p => splitSlash p)) = [] →
      getValuesFromObjectByPath obj (PathArg.multiple ps) = JSVal.undef) ∧
    (∀ p, pathContribution obj (splitSlash p) = some (JSVal.arr []) →
      getValuesFromObjectByPath obj (PathArg.single p) = JSVal.arr [] ∧
        JSVal.arr [] ≠ JSVal.undef) := by
  constructor
  · intro ps h
    simp [getValuesFromObjectByPath, normalizePaths, h]
  · intro p h
    refine ⟨?_, by simp⟩
    simp [getValuesFromObjectByPath, normalizePaths, extractResults, h]

/-- Witness for claim C3: a document without the queried field gives
undefined for the multi-path query, while a document whose field a holds
the empty array gives back that empty array for the path a. -/
theorem extract_empty_vs_absent_witness :
    getValuesFromObjectByPath (JSVal.obj [("a", JSVal.num 1)])
        (PathArg.multiple ["x/y"]) = JSVal.undef ∧
    getValuesFromObjectByPath (JSVal.obj [("a", JSVal.arr [])])
        (PathArg.single "a") = JSVal.arr [] :=
  ⟨(extract_empty_vs_absent (JSVal.obj [("a", JSVal.num 1)])).1 ["x/y"] rfl,
   ((extract_empty_vs_absent (JSVal.obj [("a", JSVal.arr [])])).2 "a" rfl).1⟩

/-- Claim C4: when the current value is an array and the next segment is
the wildcard, the traversal continues with the truthy-filtered,
once-flattened copy of the array; on the document of testable property 4
of the spec, the query items/[n]/v returns the sequence 1, 2. -/
theorem traverse_wildcard_flatten :
    (∀ (xs : List JSVal) (rest : List String),
      traverseBasedOnPath (JSVal.arr xs) ("[n]" :: rest) =
        traverseBasedOnPath (JSVal.arr (flattenOne (xs.filter truthy))) rest) ∧
    getValuesFromObjectByPath docNested (PathArg.single "items/[n]/v") =
      JSVal.arr [JSVal.num 1, JSVal.num 2] :=
  ⟨fun _ _ => rfl, rfl⟩

/-- Claim C5: a normal field segment on an array intermediate
distributes the lookup over every element, discards falsy lookup results
and flattens one level; the final accessor lookup over an array
intermediate likewise distributes and filters (without flattening); on
the document of testable property 3 of the spec, the query items/v
returns the sequence 1, 2 with the falsy 0 filtered out. -/
theorem traverse_array_distribution :
    (∀ (xs : List JSVal) (key : String) (rest : List String), key ≠ "[n]" →
      traverseBasedOnPath (JSVal.arr xs) (key :: rest) =
        traverseBasedOnPath
          (JSVal.arr (flattenOne ((xs.map (fun item => jsOptLookup item key)).filter truthy)))
          rest) ∧
    (∀ (obj : JSVal) (ks : List String) (acc : String) (xs : List JSVal),
      traverseBasedOnPath obj ks = JSVal.arr xs →
      pathContribution obj (ks ++ [acc]) =
        some (JSVal.arr ((xs.map (fun item => jsOptLookup item acc)).filter truthy))) ∧
    getValuesFromObjectByPath docItems (PathArg.single "items/v") =
      JSVal.arr [JSVal.num 1, JSVal.num 2] := by
  refine ⟨?_, ?_, rfl⟩
  · intro xs key rest hkey
    simp [traverseBasedOnPath, isNullish, hkey]
  · intro obj ks acc xs h
    simp [pathContribution, isEmpty_concat_eq_false, List.dropLast_concat,
      List.getLastD_concat, h, isUndef]

/-- Witness for claim C5: the segment v distributes over a one-element
array, and the accessor v on the array intermediate of docItems yields
the filtered contribution 1, 2. -/
theorem traverse_array_distribution_witness :
    traverseBasedOnPath (JSVal.arr [JSVal.obj [("v", JSVal.num 1)]]) ["v"] =
      JSVal.arr [JSVal.num 1] ∧
    pathContribution docItems ["items", "v"] =
      some (JSVal.arr [JSVal.num 1, JSVal.num 2]) :=
  ⟨traverse_array_distribution.1 [JSVal.obj [("v", JSVal.num 1)]] "v" [] (by decide),
   traverse_array_distribution.2.1 docItems ["items"] "v"
     [JSVal.obj [("v", JSVal.num 1)], JSVal.obj [("v", JSVal.num 2)],
      JSVal.obj [("v", JSVal.num 0)]] rfl⟩

/-- Claim C6: a wildcard segment reached while the current value is not
an array (the null and undefined cases break out of the loop before the
wildcard check and are excluded) makes the whole traversal return
undefined, and a path whose prefix traversal is undefined contributes
nothing, so no result and no exceptional outcome reaches the caller. -/
theorem wildcard_non_array_undefined :
    (∀ (current : JSVal) (rest : List String),
      isArray current = false → isNullish current = false →
      traverseBasedOnPath current ("[n]" :: rest) = JSVal.undef) ∧
    (∀ (obj : JSVal) (ks : List String) (acc : String),
      traverseBasedOnPath obj ks = JSVal.undef →
      pathContribution obj (ks ++ [acc]) = none) := by
  constructor
  · intro current rest hArr hNull
    cases current <;> simp_all [traverseBasedOnPath, isNullish, isArray]
  · intro obj ks acc h
    simp [pathContribution, isEmpty_concat_eq_false, List.dropLast_concat, h, isUndef]

/-- Witness for claim C6: the wildcard on the number 7 yields undefined,
and a path whose prefix traversal is undefined contributes nothing on
the empty object. -/
theorem wildcard_non_array_undefined_witness :
    traverseBasedOnPath (JSVal.num 7) ["[n]"] = JSVal.undef ∧
    pathContribution (JSVal.obj []) ["x", "y"] = none :=
  ⟨wildcard_non_array_undefined.1 (JSVal.num 7) [] rfl rfl,
   wildcard_non_array_undefined.2 (JSVal.obj []) ["x"] "y" rfl⟩

/-- Claim C7 counterexample: the empty path string is not skipped.
Splitting the empty string on the slash yields a one-element list
holding the empty segment, exactly as String.prototype.split does in
JavaScript, so the guard for a zero-segment path never fires; the empty
segment becomes the accessor and is looked up at the document root.  On
a document carrying a field named by the empty string the call returns
that field value, not undefined. -/
theorem extract_empty_path_counterexample :
    getValuesFromObjectByPath (JSVal.obj [("", JSVal.num 5)]) (PathArg.single "") = JSVal.num 5 ∧
      JSVal.num 5 ≠ JSVal.undef :=
  ⟨rfl, by simp⟩

/-- Claim C7 amended: the empty path string splits into one empty
segment, whose accessor is the empty string and whose traversal prefix
is empty; the call therefore returns the document root lookup at the
empty-string key (distributed with falsy filtering when the root is an
array), which is undefined exactly when that lookup is undefined — in
particular undefined for every document without an empty-string key. -/
theorem extract_empty_path_amended (obj : JSVal) :
    getValuesFromObjectByPath obj (PathArg.single "") =
      (match obj with
       | JSVal.arr xs => JSVal.arr ((xs.map (fun item => jsOptLookup item "")).filter truthy)
       | v => jsOptLookup v "") := by
  have hsplit : splitSlash "" = [""] := rfl
  cases obj with
  | obj fields =>
    cases hl : fields.lookup "" with
    | none =>
      simp [getValuesFromObjectByPath, normalizePaths, hsplit, pathContribution,
        traverseBasedOnPath, extractResults, jsOptLookup, jsLookup, hl, isUndef]
    | some v =>
      cases v <;>
        simp [getValuesFromObjectByPath, normalizePaths, hsplit, pathContribution,
          traverseBasedOnPath, extractResults, jsOptLookup, jsLookup, hl, isUndef]
  | _ => rfl

/-- Claim C9: a null or undefined current value stops the traversal
immediately, whatever segments remain, and is returned as is; a path
whose prefix traversal is null or undefined then contributes nothing,
because the final accessor lookup on a null or undefined intermediate is
undefined. -/
theorem traverse_nullish_short_circuit :
    (∀ rest : List String, traverseBasedOnPath JSVal.null rest = JSVal.null) ∧
    (∀ rest : List String, traverseBasedOnPath JSVal.undef rest = JSVal.undef) ∧
    (∀ (obj : JSVal) (ks : List String) (acc : String),
      (traverseBasedOnPath obj ks = JSVal.null ∨ traverseBasedOnPath obj ks = JSVal.undef) →
      pathContribution obj (ks ++ [acc]) = none) := by
  refine ⟨?_, ?_, ?_⟩
  · intro rest; cases rest <;> rfl
  · intro rest; cases rest <;> rfl
  · intro obj ks acc h
    rcases h with h | h <;>
      simp [pathContribution, isEmpty_concat_eq_false, List.dropLast_concat,
        List.getLastD_concat, h, isUndef, jsOptLookup]

/-- Witness for claim C9: on a document whose field a is null, the
prefix a stops at null, the remaining segment b is never looked up, and
the three-segment path a/b/c contributes nothing. -/
theorem traverse_nullish_short_circuit_witness :
    pathContribution (JSVal.obj [("a", JSVal.null)]) ["a", "b", "c"] = none :=
  traverse_nullish_short_circuit.2.2 (JSVal.obj [("a", JSVal.null)]) ["a", "b"] "c"
    (Or.inl rfl)

/-- Claim C10: when the traversal prefix reaches an array intermediate
and the accessor lookup is falsy on every element, the final value is
the empty array, which is not undefined and is therefore appended to the
results, so the single-path call returns the empty array rather than
undefined. -/
theorem array_intermediate_all_falsy_empty (obj : JSVal) (p : String) (ks : List String)
    (acc : String) (xs : List JSVal)
    (hsplit : splitSlash p = ks ++ [acc])
    (htrav : traverseBasedOnPath obj ks = JSVal.arr xs)
    (hfalsy : ∀ item ∈ xs, truthy (jsOptLookup item acc) = false) :
    getValuesFromObjectByPath obj (PathArg.single p) = JSVal.arr [] ∧
      JSVal.arr [] ≠ JSVal.undef := by
  have hfilter : (xs.map (fun item => jsOptLookup item acc)).filter truthy = [] := by
    rw [List.filter_eq_nil_iff]
    intro a ha
    rcases List.mem_map.mp ha with ⟨item, hitem, rfl⟩
    simpa using hfalsy item hitem
  have hc : pathContribution obj (splitSlash p) = some (JSVal.arr []) := by
    rw [hsplit]
    simp [pathContribution, isEmpty_concat_eq_false, List.dropLast_concat,
      List.getLastD_concat, htrav, isUndef, hfilter]
  constructor
  · simp [getValuesFromObjectByPath, normalizePaths, extractResults, hc]
  · simp

/-- Witness for claim C10: the accessor v is absent from the single
element of the array under a, so every lookup is falsy and the query a/v
returns the empty array. -/
theorem array_intermediate_all_falsy_empty_witness :
    getValuesFromObjectByPath (JSVal.obj [("a", JSVal.arr [JSVal.obj [("w", JSVal.num 1)]])])
        (PathArg.single "a/v") = JSVal.arr [] :=
  (array_intermediate_all_falsy_empty
    (JSVal.obj [("a", JSVal.arr [JSVal.obj [("w", JSVal.num 1)]])]) "a/v" ["a"] "v"
    [JSVal.obj [("w", JSVal.num 1)]] rfl rfl (by decide)).1
